import Mathlib

/-!
# A verification development for `scenes/scenario1.cc`

The program drives an ns-3 point-to-point UDP experiment for every pair of a
packet size and a bandwidth, derives a `TestResult` record from each run and
writes the records to a CSV file.

## Embedding

* `uint32_t` / `uint64_t` values are natural numbers; arguments are taken to be
  in range, and the one product the code forms (`packetSize * nPackets`) is
  reduced modulo `2 ^ 32` as the machine does.
* A `double` is a `Double`: a finite rational value, an infinity or a NaN.  A
  conversion of a `uint32_t` to `double` is exact (every integer below `2 ^ 53`
  is a double), so the throughput fields are given by their exact value.  The
  arithmetic of the CPU estimate rounds, so it is a parameter (`DoubleArith`).
* The argument `double bandwidth` is a finite double other than negative zero,
  given by its value; the program only prints it, with `std::to_string`, which
  is `to_string` here: the `%f` conversion, six decimals, round to nearest and
  ties to even.
* The ns-3 library, `sysinfo` and the output stream are outside the program.
  What the program reads from them is a `World`; what it asks of ns-3 is
  recorded, in program order, as a list of `Ns3Call`.  The library calls are
  taken to return.
* Unsigned integer division by zero is undefined behaviour in C++; it is the
  error `RunError.divisionByZero`.
-/

namespace Scenario1

/-! ## Data model -/

/-- Value of a C++ `double`. -/
inductive Double where
  | finite (q : ℚ)
  | posInf
  | negInf
  | nan
  deriving DecidableEq

/-- Rounding arithmetic on doubles used by the CPU estimate of `RunTest`
(lines 97 to 100): conversion of an unsigned integer, product, difference and
quotient. -/
structure DoubleArith where
  ofNat : Nat → Double
  mul : Double → Double → Double
  sub : Double → Double → Double
  div : Double → Double → Double

/-- The record `struct TestResult` (lines 20 to 29), fields in declaration order. -/
structure TestResult where
  throughput : Double
  throughputBytes : Double
  cpuUtilization : Double
  jitter : Double
  packetsLost : Nat
  packetsSent : Nat
  packetSize : Nat
  deriving DecidableEq

/-- What one run of `RunTest` reads from outside the program: `sysinfo`
(`info.totalram`, `info.procs`), the server's loss counter
(`udpServer->GetLost()`) and the simulator clock after the run
(`Simulator::Now().GetSeconds()`). -/
structure World where
  totalram : Nat
  procs : Nat
  lost : Nat
  now : Double

/-- The requests `RunTest` makes of the ns-3 library, one constructor per call
site, with the arguments the program passes. -/
inductive Ns3Call where
  | setDeviceDataRate (value : String)
  | setChannelDelayMs (ms : Nat)
  | createNodes (n : Nat)
  | installDevices
  | installInternetStack
  | setAddressBase
  | assignAddresses
  | installServer (port : Nat)
  | startServer (seconds : ℚ)
  | clientSetPacketSize (v : Nat)
  | clientSetMaxPackets (v : Nat)
  | clientSetInterval (seconds : ℚ)
  | installClient
  | startClient (seconds : ℚ)
  | stopClient (seconds : ℚ)
  | createAnimation
  | simulatorStop (seconds : ℚ)
  | simulatorRun
  | getLost
  | simulatorNow
  | simulatorDestroy
  deriving DecidableEq

/-- The ways a run of `RunTest` can fail inside the program itself.  The source
has no parameter check and throws nothing; its only failure is the undefined
integer division by `simTime = 0` of lines 92 and 93. -/
inductive RunError where
  | divisionByZero
  deriving DecidableEq

/-- Outcome of a run: the ns-3 calls made, in order, and the record returned or
the failure. -/
structure Outcome where
  calls : List Ns3Call
  result : Except RunError TestResult

/-! ## `RunTest` -/

/-- Number of values of a `uint32_t`. -/
def UINT32_SIZE : Nat := 2 ^ 32

/-- The interval between two sends of the client, `Seconds(1.0)` (line 76). -/
def clientInterval : ℚ := 1

/-- The time the client starts, `Seconds(1.0)` (line 78). -/
def clientStart : ℚ := 1

/-- The library function `std::to_string(double)` on a finite value: the text
of `sprintf("%f", value)`, that is a minus sign for a negative value, then the
magnitude rounded to six decimals (to nearest, ties to even) as integer part,
point and six digits. -/
def to_string (value : ℚ) : String :=
  let scaled : Nat := value.num.natAbs * 1000000
  let floor : Nat := scaled / value.den
  let rest : Nat := scaled % value.den
  let millionths : Nat :=
    if value.den < 2 * rest ∨ (2 * rest = value.den ∧ floor % 2 = 1) then floor + 1 else floor
  let digits : String := toString (millionths % 1000000)
  (if value < 0 then "-" else "") ++ toString (millionths / 1000000) ++ "."
    ++ String.mk (List.replicate (6 - digits.length) '0') ++ digits

/-- Lines 42 to 86 of `RunTest`: the link, nodes, stack, addresses, server and
client are set up, the stop time is scheduled and the simulation is run.  The
data rate of the link is the text `std::to_string(bandwidth) + "bps"`. -/
def setupAndRun (packetSize : Nat) (bandwidth : ℚ) (nPackets simTime : Nat) : List Ns3Call :=
  [ .setDeviceDataRate (to_string bandwidth ++ "bps"),
    .setChannelDelayMs 2,
    .createNodes 2,
    .installDevices,
    .installInternetStack,
    .setAddressBase,
    .assignAddresses,
    .installServer 5001,
    .startServer 0,
    .clientSetPacketSize packetSize,
    .clientSetMaxPackets nPackets,
    .clientSetInterval clientInterval,
    .installClient,
    .startClient clientStart,
    .stopClient ((simTime : ℚ) + 1),
    .createAnimation,
    .simulatorStop ((simTime : ℚ) + 2),
    .simulatorRun ]

/-- The function `RunTest` (lines 31 to 109).

After the run the loss counter is read, then the statistics are computed:
`nPackets / simTime` and `(packetSize * nPackets) / simTime` are divisions of
`uint32_t` values (the product wraps modulo `2 ^ 32`) whose quotient is then
converted to `double`.  With `simTime = 0` the division is undefined and the
run ends there. -/
def RunTest (arith : DoubleArith) (w : World) (packetSize : Nat) (bandwidth : ℚ)
    (nPackets simTime : Nat) : Outcome :=
  let cpuTotal := w.totalram % 2 ^ 64
  let numCpus := w.procs % UINT32_SIZE
  let calls := setupAndRun packetSize bandwidth nPackets simTime ++ [.getLost]
  if simTime = 0 then
    { calls := calls, result := .error .divisionByZero }
  else
    let totalCpuTime := arith.mul (arith.mul w.now (arith.ofNat 2)) (arith.ofNat simTime)
    let idleCpuTime := arith.div (arith.sub totalCpuTime (arith.ofNat cpuTotal)) (arith.ofNat numCpus)
    { calls := calls ++ [.simulatorNow, .simulatorDestroy],
      result := .ok
        { packetsLost := w.lost % UINT32_SIZE,
          packetsSent := nPackets,
          throughput := .finite ((nPackets / simTime : Nat) : ℚ),
          throughputBytes := .finite (((packetSize * nPackets) % UINT32_SIZE / simTime : Nat) : ℚ),
          packetSize := packetSize,
          cpuUtilization :=
            arith.mul (arith.div (arith.sub totalCpuTime idleCpuTime) totalCpuTime) (arith.ofNat 100),
          jitter := .finite 0 } }

/-! ## `SaveResultsToFile` -/

/-- The text `operator<<` produces for an unsigned integer and for a double. -/
structure Formatter where
  uint : Nat → String
  dbl : Double → String

/-- The header the program writes first (lines 115 and 116). -/
def csvHeader : String :=
  "Packet Size,Throughput (pps),Throughput (Bps),CPU Utilization (%),Jitter,Packets Lost,Packets Sent\n"

/-- The function `SaveResultsToFile` (lines 111 to 124): the characters streamed
to the file, the header and then one insertion sequence per result. -/
def SaveResultsToFile (fmt : Formatter) (results : List TestResult) : String :=
  results.foldl
    (fun file result =>
      file ++ fmt.uint result.packetSize ++ "," ++ fmt.dbl result.throughput ++ ","
        ++ fmt.dbl result.throughputBytes ++ "," ++ fmt.dbl result.cpuUtilization
        ++ "," ++ fmt.dbl result.jitter ++ "," ++ fmt.uint result.packetsLost ++ ","
        ++ fmt.uint result.packetsSent ++ "\n")
    csvHeader

/-! ## `main` -/

/-- The macro `NUM_PACKET_SIZES` (line 15). -/
def NUM_PACKET_SIZES : Nat := 5

/-- The macro `NUM_BANDWIDTHS` (line 16). -/
def NUM_BANDWIDTHS : Nat := 2

/-- The state of the loops of `main`: the vector `allResults` and the requests
made of ns-3 so far, in program order. -/
structure SweepState where
  allResults : List TestResult
  calls : List Ns3Call

/-- The inner loop of `main` (lines 144 to 148) for one packet size: each
bandwidth is run, in the order of the array, and its record appended to
`allResults`.  The run that appends the `k`-th result reads the world
`worlds k`.  A run that fails ends the program. -/
def sweepRow (arith : DoubleArith) (worlds : Nat → World) (numBandwidths : Nat)
    (bandwidths : List ℚ) (nPackets simTime : Nat) (packetSize : Nat)
    (state : SweepState) : Except RunError SweepState :=
  (List.range numBandwidths).foldlM
    (fun state j =>
      match (RunTest arith (worlds state.allResults.length) packetSize (bandwidths.getD j 0)
          nPackets simTime).result with
      | .ok result =>
        .ok
          { allResults := state.allResults ++ [result],
            calls := state.calls
              ++ (RunTest arith (worlds state.allResults.length) packetSize
                    (bandwidths.getD j 0) nPackets simTime).calls }
      | .error e => .error e)
    state

/-- The nested loops of `main` (lines 139 to 149) over arrays `payloadSize` of
`numSizes` entries and `bandwidths` of `numBandwidths` entries, starting from
the empty vector `allResults`. -/
def sweep (arith : DoubleArith) (worlds : Nat → World) (numSizes numBandwidths : Nat)
    (payloadSize : List Nat) (bandwidths : List ℚ) (nPackets simTime : Nat) :
    Except RunError SweepState :=
  (List.range numSizes).foldlM
    (fun state i =>
      sweepRow arith worlds numBandwidths bandwidths nPackets simTime (payloadSize.getD i 0)
        state)
    { allResults := [], calls := [] }

/-- The function `main` (lines 126 to 155): the sweep over the five packet
sizes and two bandwidths, then the text written to `results-172.17.0.2.csv`. -/
def main (arith : DoubleArith) (worlds : Nat → World) (fmt : Formatter) : Except RunError String :=
  let payloadSize : List Nat := [128, 256, 512, 1024, 1280]
  let bandwidths : List ℚ := [800000, 1000000]
  let nPackets : Nat := 1000000
  let simTime : Nat := 30
  match sweep arith worlds NUM_PACKET_SIZES NUM_BANDWIDTHS payloadSize bandwidths nPackets simTime with
  | .ok state => .ok (SaveResultsToFile fmt state.allResults)
  | .error e => .error e

/-- The data rates requested of the link in a sequence of calls, in order. -/
def dataRates (calls : List Ns3Call) : List String :=
  calls.filterMap fun call =>
    match call with
    | .setDeviceDataRate value => some value
    | _ => none

/-! ## Instances for running examples -/

/-- Arithmetic without rounding on finite values; a non-finite operand or a
zero divisor gives NaN.  It serves to evaluate the definitions on examples. -/
def idealArith : DoubleArith where
  ofNat n := .finite n
  mul
    | .finite a, .finite b => .finite (a * b)
    | _, _ => .nan
  sub
    | .finite a, .finite b => .finite (a - b)
    | _, _ => .nan
  div
    | .finite a, .finite b => if b = 0 then .nan else .finite (a / b)
    | _, _ => .nan

/-- A host with 8 GiB of memory and 4 processors, after a run of `simTime`
seconds that lost `lost` datagrams: the clock stands at the stop time. -/
def sampleWorld (simTime lost : Nat) : World where
  totalram := 8589934592
  procs := 4
  lost := lost
  now := .finite ((simTime : ℚ) + 2)

/-- A formatter for examples: integers in decimal, a finite double as its
integer value or as a fraction. -/
def sampleFormatter : Formatter where
  uint n := toString n
  dbl
    | .finite q => if q.den = 1 then toString q.num else toString q.num ++ "/" ++ toString q.den
    | .posInf => "inf"
    | .negInf => "-inf"
    | .nan => "nan"

/-- Two records for examples: 1000 packets of 128 and of 256 bytes over 30 s,
with a NaN and an infinite CPU estimate. -/
def sampleResults : List TestResult :=
  [ { throughput := .finite 33, throughputBytes := .finite 4266, cpuUtilization := .nan,
      jitter := .finite 0, packetsLost := 0, packetsSent := 1000, packetSize := 128 },
    { throughput := .finite 33, throughputBytes := .finite 8533, cpuUtilization := .posInf,
      jitter := .finite 0, packetsLost := 2, packetsSent := 1000, packetSize := 256 } ]

/-! ## Quantities the specification names -/

/-- The specification's count of packets emitted within the time horizon,
`min(packetCount, floor(simulationDurationSec / intervalSec) + 1)`. -/
def emittedWithinHorizon (packetCount simulationDurationSec : Nat) (intervalSec : ℚ) : Nat :=
  min packetCount (⌊(simulationDurationSec : ℚ) / intervalSec⌋₊ + 1)

/-- The specification's byte throughput, the quotient
`(packetSizeBytes * packetsSent) / simulationDurationSec` over the rationals. -/
def exactThroughputBytes (packetSizeBytes packetsSent simulationDurationSec : Nat) : ℚ :=
  ((packetSizeBytes : ℚ) * (packetsSent : ℚ)) / (simulationDurationSec : ℚ)

/-- The seven column names of the table, in the order of the header. -/
def columnNames : List String :=
  ["Packet Size", "Throughput (pps)", "Throughput (Bps)", "CPU Utilization (%)", "Jitter",
    "Packets Lost", "Packets Sent"]

/-- The seven fields of a record in the order of the header columns, as text. -/
def fieldsOf (fmt : Formatter) (r : TestResult) : List String :=
  [fmt.uint r.packetSize, fmt.dbl r.throughput, fmt.dbl r.throughputBytes,
    fmt.dbl r.cpuUtilization, fmt.dbl r.jitter, fmt.uint r.packetsLost, fmt.uint r.packetsSent]

/-- The pieces of a text between the occurrences of a separator: a text with
`n` separators has `n + 1` pieces. -/
def splitAtChar (sep : Char) : List Char → List (List Char)
  | [] => [[]]
  | c :: cs =>
    if c = sep then [] :: splitAtChar sep cs
    else
      match splitAtChar sep cs with
      | [] => [[c]]
      | piece :: pieces => (c :: piece) :: pieces

/-- A consumer's reading of the file: the lines between the line feeds, each
cut into the fields between its commas. -/
def readCsv (text : String) : List (List (List Char)) :=
  (splitAtChar '\n' text.toList).map (splitAtChar ',')

/-- A line of comma-separated fields: the fields in order, a comma between two
neighbours and nowhere else. -/
def joinFields : List (List Char) → List Char
  | [] => []
  | [f] => f
  | f :: g :: fs => f ++ ',' :: joinFields (g :: fs)

/-- A text of lines and nothing else: the lines in order, each followed by a
line feed. -/
def joinLines : List (List Char) → List Char
  | [] => []
  | l :: ls => l ++ '\n' :: joinLines ls

/-! ## Facts about `RunTest` -/

/-- With a non-zero duration `RunTest` returns a record, and the record is this one. -/
theorem RunTest_result_of_ne_zero (arith : DoubleArith) (w : World) (packetSize : Nat)
    (bandwidth : ℚ) (nPackets simTime : Nat) (h : simTime ≠ 0) :
    ∃ cpu : Double, (RunTest arith w packetSize bandwidth nPackets simTime).result = .ok
      { throughput := .finite ((nPackets / simTime : Nat) : ℚ),
        throughputBytes := .finite (((packetSize * nPackets) % UINT32_SIZE / simTime : Nat) : ℚ),
        cpuUtilization := cpu,
        jitter := .finite 0,
        packetsLost := w.lost % UINT32_SIZE,
        packetsSent := nPackets,
        packetSize := packetSize } := by
  simp only [RunTest, if_neg h]
  exact ⟨_, rfl⟩

/-- With a non-zero duration the calls of `RunTest` are the set-up and run,
then the reading of the loss counter, of the clock, and the tear-down. -/
theorem RunTest_calls_of_ne_zero (arith : DoubleArith) (w : World) (packetSize : Nat)
    (bandwidth : ℚ) (nPackets simTime : Nat) (h : simTime ≠ 0) :
    (RunTest arith w packetSize bandwidth nPackets simTime).calls
      = setupAndRun packetSize bandwidth nPackets simTime
          ++ [.getLost, .simulatorNow, .simulatorDestroy] := by
  simp [RunTest, if_neg h]

/-- If `RunTest` returns a record the duration was not zero. -/
theorem simTime_ne_zero_of_result (arith : DoubleArith) (w : World) (packetSize : Nat)
    (bandwidth : ℚ) (nPackets simTime : Nat) (r : TestResult)
    (h : (RunTest arith w packetSize bandwidth nPackets simTime).result = .ok r) :
    simTime ≠ 0 := by
  intro h0
  subst h0
  simp [RunTest] at h

/-- The horizon count with the source's one-second interval is `simTime + 1`
capped by the packet count. -/
theorem emittedWithinHorizon_clientInterval (packetCount simTime : Nat) :
    emittedWithinHorizon packetCount simTime clientInterval = min packetCount (simTime + 1) := by
  simp [emittedWithinHorizon, clientInterval]

/-- C2. For every trial that `RunTest` completes, whatever the packet size,
bandwidth, packet count and duration, the returned record's `packetsSent` is
the requested packet count; and `RunTest` completes whenever the duration is
not zero. -/
theorem RunTest_packetsSent_eq_nPackets (arith : DoubleArith) (w : World) (packetSize : Nat)
    (bandwidth : ℚ) (nPackets simTime : Nat) :
    (simTime ≠ 0 → ∃ r, (RunTest arith w packetSize bandwidth nPackets simTime).result = .ok r)
    ∧ ∀ r, (RunTest arith w packetSize bandwidth nPackets simTime).result = .ok r →
        r.packetsSent = nPackets := by
  constructor
  · intro h0
    obtain ⟨cpu, hr⟩ := RunTest_result_of_ne_zero arith w packetSize bandwidth nPackets simTime h0
    exact ⟨_, hr⟩
  · intro r h
    have h0 := simTime_ne_zero_of_result arith w packetSize bandwidth nPackets simTime r h
    obtain ⟨cpu, hr⟩ := RunTest_result_of_ne_zero arith w packetSize bandwidth nPackets simTime h0
    rw [hr] at h
    injection h with h
    rw [← h]

/-- Witness of C2: the first trial of `main` completes and reports one million packets sent. -/
theorem RunTest_packetsSent_eq_nPackets_witness :
    ∃ r, (RunTest idealArith (sampleWorld 30 0) 128 800000 1000000 30).result = .ok r
      ∧ r.packetsSent = 1000000 :=
  ((RunTest_packetsSent_eq_nPackets idealArith (sampleWorld 30 0) 128 800000 1000000 30).1
    (by decide)).elim
    fun r hr =>
      ⟨r, hr, (RunTest_packetsSent_eq_nPackets idealArith (sampleWorld 30 0) 128 800000 1000000
        30).2 r hr⟩

/-- C3, as stated, fails on the first trial of `main`: with one million packets
requested and a horizon of 30 s the record reports 1000000 packets sent, while
`min(packetCount, floor(30 / 1) + 1)` is 31. -/
theorem RunTest_packetsSent_ne_emittedWithinHorizon :
    ∃ r, (RunTest idealArith (sampleWorld 30 0) 128 800000 1000000 30).result = .ok r
      ∧ r.packetsSent = 1000000
      ∧ emittedWithinHorizon 1000000 30 clientInterval = 31
      ∧ r.packetsSent ≠ emittedWithinHorizon 1000000 30 clientInterval := by
  refine ⟨_, rfl, rfl, ?_, ?_⟩
  · rw [emittedWithinHorizon_clientInterval]; decide
  · rw [emittedWithinHorizon_clientInterval]; decide

/-- C3, amended. For every trial with a non-zero duration `RunTest` returns a
record whose `packetsSent` is the requested packet count, whatever the time
horizon; it agrees with `min(packetCount, floor(simTime / interval) + 1)`, the
interval being the source's 1 s, exactly when `packetCount ≤ simTime + 1`. -/
theorem RunTest_packetsSent_vs_horizon (arith : DoubleArith) (w : World) (packetSize : Nat)
    (bandwidth : ℚ) (nPackets simTime : Nat) (h : simTime ≠ 0) :
    ∃ r, (RunTest arith w packetSize bandwidth nPackets simTime).result = .ok r
      ∧ r.packetsSent = nPackets
      ∧ (r.packetsSent = emittedWithinHorizon nPackets simTime clientInterval
          ↔ nPackets ≤ simTime + 1) := by
  obtain ⟨cpu, hr⟩ := RunTest_result_of_ne_zero arith w packetSize bandwidth nPackets simTime h
  refine ⟨_, hr, rfl, ?_⟩
  rw [emittedWithinHorizon_clientInterval]
  show nPackets = min nPackets (simTime + 1) ↔ nPackets ≤ simTime + 1
  constructor
  · intro e
    rw [e]
    exact Nat.min_le_right _ _
  · intro e
    exact (Nat.min_eq_left e).symm

/-- Witness of the amended C3: 20 packets over 30 s, within the horizon. -/
theorem RunTest_packetsSent_vs_horizon_witness :
    (30 : Nat) ≠ 0 ∧
    ∃ r, (RunTest idealArith (sampleWorld 30 0) 128 800000 20 30).result = .ok r
      ∧ r.packetsSent = 20
      ∧ (r.packetsSent = emittedWithinHorizon 20 30 clientInterval ↔ 20 ≤ 30 + 1) :=
  ⟨by decide,
    RunTest_packetsSent_vs_horizon idealArith (sampleWorld 30 0) 128 800000 20 30 (by decide)⟩

/-- C4 at the first trial of `main` and at a product that overflows. With
`packetSize = 128`, `nPackets = 1000000`, `simTime = 30` the record holds
4266666 where the exact quotient is 12800000/3; with `packetSize = 65536`,
`nPackets = 65536`, `simTime = 1` the 32-bit product wraps to 0 and the record
holds 0 where the exact quotient is 4294967296. -/
theorem RunTest_throughputBytes_not_exact :
    (∃ r, (RunTest idealArith (sampleWorld 30 0) 128 800000 1000000 30).result = .ok r
      ∧ r.throughputBytes = .finite 4266666
      ∧ exactThroughputBytes 128 r.packetsSent 30 = 12800000 / 3
      ∧ r.throughputBytes ≠ .finite (exactThroughputBytes 128 r.packetsSent 30))
    ∧ (∃ r, (RunTest idealArith (sampleWorld 1 0) 65536 800000 65536 1).result = .ok r
      ∧ r.throughputBytes = .finite 0
      ∧ exactThroughputBytes 65536 r.packetsSent 1 = 4294967296
      ∧ r.throughputBytes ≠ .finite (exactThroughputBytes 65536 r.packetsSent 1)) := by
  have e1 : exactThroughputBytes 128 1000000 30 = 12800000 / 3 := by
    norm_num [exactThroughputBytes]
  have e2 : exactThroughputBytes 65536 65536 1 = 4294967296 := by
    norm_num [exactThroughputBytes]
  refine ⟨⟨_, rfl, by decide, e1, ?_⟩, ⟨_, rfl, by decide, e2, ?_⟩⟩
  · show Double.finite ((128 * 1000000 % UINT32_SIZE / 30 : Nat) : ℚ)
      ≠ Double.finite (exactThroughputBytes 128 1000000 30)
    rw [e1]
    intro hc
    injection hc with hc
    norm_num [UINT32_SIZE] at hc
  · show Double.finite ((65536 * 65536 % UINT32_SIZE / 1 : Nat) : ℚ)
      ≠ Double.finite (exactThroughputBytes 65536 65536 1)
    rw [e2]
    intro hc
    injection hc with hc
    norm_num [UINT32_SIZE] at hc

/-- C5 at the parameters of `main`, `packetSize = 128`, `nPackets = 1000000`,
`simTime = 30`: the record holds `throughput = 33333` and
`throughputBytes = 4266666`, and `128 * 33333 = 4266624`. -/
theorem RunTest_throughputBytes_ne_packetSize_mul_throughput :
    ∃ r, (RunTest idealArith (sampleWorld 30 0) 128 800000 1000000 30).result = .ok r
      ∧ r.packetSize = 128
      ∧ r.throughput = .finite 33333
      ∧ r.throughputBytes = .finite 4266666
      ∧ ((128 : ℚ) * 33333 = 4266624)
      ∧ r.throughputBytes ≠ .finite ((r.packetSize : ℚ) * 33333) := by
  refine ⟨_, rfl, rfl, by decide, by decide, by norm_num, ?_⟩
  show Double.finite ((128 * 1000000 % UINT32_SIZE / 30 : Nat) : ℚ)
    ≠ Double.finite (((128 : Nat) : ℚ) * 33333)
  intro hc
  injection hc with hc
  norm_num [UINT32_SIZE] at hc

/-- The text `std::to_string` gives on some values: the bandwidths of `main`,
zero, a negative value, `2^-10` (rounded up to `0.000977`), the ties `2^-7` and
`3 * 2^-7` (to the even neighbour) and a negative value below half a millionth. -/
theorem to_string_values :
    to_string 800000 = "800000.000000" ∧ to_string 1000000 = "1000000.000000"
      ∧ to_string 0 = "0.000000" ∧ to_string (-1) = "-1.000000"
      ∧ to_string (mkRat 1 1024) = "0.000977"
      ∧ to_string (mkRat 1 128) = "0.007812" ∧ to_string (mkRat 3 128) = "0.023438"
      ∧ to_string (mkRat (-1) 1000000000) = "-0.000000" := by
  decide

/-- C6, as stated, fails at `bandwidth = 0`: the run is not rejected; the link
is given the data rate `0.000000bps`, the whole set-up is made, the simulator
is stopped at 32 s and run, and a record is returned. -/
theorem RunTest_zero_bandwidth_not_rejected :
    (0 : ℚ) ≤ 0 ∧
    ∃ r, (RunTest idealArith (sampleWorld 30 0) 128 0 1000 30).result = .ok r
      ∧ r.packetsSent = 1000
      ∧ (RunTest idealArith (sampleWorld 30 0) 128 0 1000 30).calls =
          [ .setDeviceDataRate "0.000000bps", .setChannelDelayMs 2, .createNodes 2,
            .installDevices, .installInternetStack, .setAddressBase, .assignAddresses,
            .installServer 5001, .startServer 0, .clientSetPacketSize 128,
            .clientSetMaxPackets 1000, .clientSetInterval 1, .installClient, .startClient 1,
            .stopClient 31, .createAnimation, .simulatorStop 32, .simulatorRun, .getLost,
            .simulatorNow, .simulatorDestroy ] := by
  have htext : to_string 0 ++ "bps" = "0.000000bps" := by decide
  refine ⟨le_refl 0, _, rfl, rfl, ?_⟩
  rw [RunTest_calls_of_ne_zero idealArith (sampleWorld 30 0) 128 0 1000 30 (by decide)]
  simp only [setupAndRun, clientInterval, clientStart, htext, List.cons_append,
    List.nil_append]
  norm_num

/-- C6, amended. `RunTest` has no parameter check and raises no
`InvalidParameterError`: for every packet size and every bandwidth, and every
non-zero duration, it requests the data rate `std::to_string(bandwidth) + "bps"`
for the link, sets the client's `PacketSize` to `packetSize` and `MaxPackets`
to `nPackets`, stops the client at `simTime + 1` s, schedules the stop at
`simTime + 2` s, runs the simulation, and returns a record carrying the packet
size it was given. -/
theorem RunTest_no_parameter_check (arith : DoubleArith) (w : World) (packetSize : Nat)
    (bandwidth : ℚ) (nPackets simTime : Nat) (h : simTime ≠ 0) :
    (∃ r, (RunTest arith w packetSize bandwidth nPackets simTime).result = .ok r
      ∧ r.packetSize = packetSize)
    ∧ (RunTest arith w packetSize bandwidth nPackets simTime).calls =
        [ .setDeviceDataRate (to_string bandwidth ++ "bps"), .setChannelDelayMs 2,
          .createNodes 2, .installDevices, .installInternetStack, .setAddressBase,
          .assignAddresses, .installServer 5001, .startServer 0,
          .clientSetPacketSize packetSize, .clientSetMaxPackets nPackets,
          .clientSetInterval 1, .installClient, .startClient 1,
          .stopClient ((simTime : ℚ) + 1), .createAnimation,
          .simulatorStop ((simTime : ℚ) + 2), .simulatorRun, .getLost, .simulatorNow,
          .simulatorDestroy ] := by
  obtain ⟨cpu, hr⟩ := RunTest_result_of_ne_zero arith w packetSize bandwidth nPackets simTime h
  refine ⟨⟨_, hr, rfl⟩, ?_⟩
  rw [RunTest_calls_of_ne_zero arith w packetSize bandwidth nPackets simTime h]
  rfl

/-- Witness of the amended C6: a zero bandwidth on the largest packet size of `main`. -/
theorem RunTest_no_parameter_check_witness :
    (30 : Nat) ≠ 0 ∧
    ((∃ r, (RunTest idealArith (sampleWorld 30 0) 1280 0 1000000 30).result = .ok r
      ∧ r.packetSize = 1280)
    ∧ (RunTest idealArith (sampleWorld 30 0) 1280 0 1000000 30).calls =
        [ .setDeviceDataRate (to_string 0 ++ "bps"), .setChannelDelayMs 2,
          .createNodes 2, .installDevices, .installInternetStack, .setAddressBase,
          .assignAddresses, .installServer 5001, .startServer 0,
          .clientSetPacketSize 1280, .clientSetMaxPackets 1000000,
          .clientSetInterval 1, .installClient, .startClient 1,
          .stopClient (((30 : Nat) : ℚ) + 1), .createAnimation,
          .simulatorStop (((30 : Nat) : ℚ) + 2), .simulatorRun, .getLost, .simulatorNow,
          .simulatorDestroy ]) :=
  ⟨by decide,
    RunTest_no_parameter_check idealArith (sampleWorld 30 0) 1280 0 1000000 30 (by decide)⟩

/-- C7. For every trial, whatever the packet size, bandwidth, packet count,
duration and host telemetry, the `jitter` field of the record `RunTest` returns
is exactly 0; and `RunTest` returns a record whenever the duration is not zero. -/
theorem RunTest_jitter_zero (arith : DoubleArith) (w : World) (packetSize : Nat)
    (bandwidth : ℚ) (nPackets simTime : Nat) :
    (simTime ≠ 0 → ∃ r, (RunTest arith w packetSize bandwidth nPackets simTime).result = .ok r)
    ∧ ∀ r, (RunTest arith w packetSize bandwidth nPackets simTime).result = .ok r →
        r.jitter = .finite 0 := by
  constructor
  · intro h0
    obtain ⟨cpu, hr⟩ := RunTest_result_of_ne_zero arith w packetSize bandwidth nPackets simTime h0
    exact ⟨_, hr⟩
  · intro r h
    have h0 := simTime_ne_zero_of_result arith w packetSize bandwidth nPackets simTime r h
    obtain ⟨cpu, hr⟩ := RunTest_result_of_ne_zero arith w packetSize bandwidth nPackets simTime h0
    rw [hr] at h
    injection h with h
    rw [← h]

/-- Witness of C7: the last trial of `main`, on a host that lost 7 datagrams. -/
theorem RunTest_jitter_zero_witness :
    ∃ r, (RunTest idealArith (sampleWorld 30 7) 1280 1000000 1000000 30).result = .ok r
      ∧ r.jitter = .finite 0 :=
  ((RunTest_jitter_zero idealArith (sampleWorld 30 7) 1280 1000000 1000000 30).1
    (by decide)).elim
    fun r hr =>
      ⟨r, hr, (RunTest_jitter_zero idealArith (sampleWorld 30 7) 1280 1000000 1000000 30).2 r hr⟩

/-- C8, as stated, fails: with `packetSize = 1024`, `bandwidth = 1e6`,
`packetCount = 1000` and a duration of 30 s the record holds
`packetsSent = 1000`, `throughput = 33` and `throughputBytes = 34133`, not 30,
1 and 1024. -/
theorem RunTest_end_to_end_values :
    ∃ r, (RunTest idealArith (sampleWorld 30 0) 1024 1000000 1000 30).result = .ok r
      ∧ r.packetsSent = 1000 ∧ r.packetsSent ≠ 30
      ∧ r.throughput = .finite 33 ∧ r.throughput ≠ .finite 1
      ∧ r.throughputBytes = .finite 34133 ∧ r.throughputBytes ≠ .finite 1024 := by
  refine ⟨_, rfl, ?_, ?_, ?_, ?_, ?_, ?_⟩ <;> decide

/-- C8, amended. `RunTest` with `packetSize = 1024`, `bandwidth = 1e6`,
`packetCount = 1000` and a duration of 30 s returns, on every host, a record
for packet size 1024 whose `packetsSent` is the requested count 1000; its
throughput fields follow that count: `throughput` is at most `1000 / 30` and
more than `1000 / 30 - 1` packets per second, `throughputBytes` at most
`1024 * 1000 / 30` and more than `1024 * 1000 / 30 - 1` bytes per second. -/
theorem RunTest_end_to_end_packetsSent (arith : DoubleArith) (w : World) :
    ∃ r, (RunTest arith w 1024 1000000 1000 30).result = .ok r
      ∧ r.packetSize = 1024 ∧ r.packetsSent = 1000
      ∧ (∃ t : ℚ, r.throughput = .finite t ∧ 1000 / 30 - 1 < t ∧ t ≤ 1000 / 30)
      ∧ (∃ b : ℚ, r.throughputBytes = .finite b
          ∧ 1024 * 1000 / 30 - 1 < b ∧ b ≤ 1024 * 1000 / 30) := by
  refine ⟨_, rfl, rfl, rfl, ⟨_, rfl, ?_, ?_⟩, ⟨_, rfl, ?_, ?_⟩⟩ <;> norm_num [UINT32_SIZE]

/-- C9 at `simTime = 0` with a valid packet size and bandwidth: the run reaches
the division `nPackets / simTime` after the simulation and has no result. -/
theorem RunTest_zero_duration_divides_by_zero :
    (RunTest idealArith (sampleWorld 0 0) 128 800000 1000 0).result = .error .divisionByZero
      ∧ Ns3Call.simulatorRun ∈ (RunTest idealArith (sampleWorld 0 0) 128 800000 1000 0).calls := by
  refine ⟨rfl, ?_⟩
  simp [RunTest, setupAndRun]

/-! ## The sweep of `main` -/

/-- With a non-zero duration the inner loop appends one record per bandwidth,
in order, the `j`-th being the result of the run on the `j`-th bandwidth, and
makes the calls of these runs in the same order. -/
theorem sweepRow_ok (arith : DoubleArith) (worlds : Nat → World) (bandwidths : List ℚ)
    (nPackets simTime : Nat) (packetSize : Nat) (h : simTime ≠ 0) (m : Nat) :
    ∀ st : SweepState, ∃ row : List TestResult,
      sweepRow arith worlds m bandwidths nPackets simTime packetSize st
        = .ok
            { allResults := st.allResults ++ row,
              calls := st.calls ++ (List.range m).flatMap fun j =>
                (RunTest arith (worlds (st.allResults.length + j)) packetSize
                  (bandwidths.getD j 0) nPackets simTime).calls }
      ∧ row.length = m
      ∧ ∀ j, j < m → ∃ r, row[j]? = some r
          ∧ (RunTest arith (worlds (st.allResults.length + j)) packetSize (bandwidths.getD j 0)
              nPackets simTime).result = .ok r
          ∧ r.packetSize = packetSize := by
  induction m with
  | zero =>
    intro st
    exact ⟨[], by simp [sweepRow, pure, Except.pure], rfl,
      fun j hj => absurd hj (Nat.not_lt_zero j)⟩
  | succ m ih =>
    intro st
    obtain ⟨row, hrow, hlen, hget⟩ := ih st
    have hex : ∃ r, (RunTest arith (worlds (st.allResults.length + m)) packetSize
        (bandwidths.getD m 0) nPackets simTime).result = .ok r ∧ r.packetSize = packetSize := by
      obtain ⟨cpu, hr⟩ := RunTest_result_of_ne_zero arith (worlds (st.allResults.length + m))
        packetSize (bandwidths.getD m 0) nPackets simTime h
      exact ⟨_, hr, rfl⟩
    obtain ⟨r, hr, hps⟩ := hex
    refine ⟨row ++ [r], ?_, by simp [hlen], ?_⟩
    · unfold sweepRow at hrow ⊢
      rw [List.range_succ, List.foldlM_append, hrow]
      simp only [bind, Except.bind, List.foldlM_cons, List.foldlM_nil, List.length_append, hlen,
        hr, pure, Except.pure, List.append_assoc, List.flatMap_append, List.flatMap_singleton]
    · intro j hj
      rcases Nat.lt_succ_iff_lt_or_eq.mp hj with hlt | heq
      · obtain ⟨r0, hr1, hr2, hr3⟩ := hget j hlt
        refine ⟨r0, ?_, hr2, hr3⟩
        rw [List.getElem?_append_left (by omega)]
        exact hr1
      · subst heq
        refine ⟨r, ?_, hr, hps⟩
        rw [List.getElem?_append_right (by omega)]
        simp [hlen]

/-- With a non-zero duration the nested loops return `numSizes * numBandwidths`
records, the one at index `i * numBandwidths + j` being the result of the run
on the `i`-th packet size and the `j`-th bandwidth, and the calls made are
those of these runs, packet size by packet size and within one packet size
bandwidth by bandwidth. -/
theorem sweep_ok (arith : DoubleArith) (worlds : Nat → World) (payloadSize : List Nat)
    (bandwidths : List ℚ) (nPackets simTime : Nat) (h : simTime ≠ 0) (m n : Nat) :
    ∃ rs : List TestResult,
      sweep arith worlds n m payloadSize bandwidths nPackets simTime
        = .ok
            { allResults := rs,
              calls := (List.range n).flatMap fun i => (List.range m).flatMap fun j =>
                (RunTest arith (worlds (i * m + j)) (payloadSize.getD i 0)
                  (bandwidths.getD j 0) nPackets simTime).calls }
      ∧ rs.length = n * m
      ∧ ∀ i j, i < n → j < m → ∃ r, rs[i * m + j]? = some r
          ∧ (RunTest arith (worlds (i * m + j)) (payloadSize.getD i 0) (bandwidths.getD j 0)
              nPackets simTime).result = .ok r
          ∧ r.packetSize = payloadSize.getD i 0 := by
  induction n with
  | zero =>
    exact ⟨[], by simp [sweep, pure, Except.pure], by simp,
      fun i j hi _ => absurd hi (Nat.not_lt_zero i)⟩
  | succ n ih =>
    obtain ⟨rs, hrs, hlen, hget⟩ := ih
    obtain ⟨row, hrow, hrlen, hrget⟩ := sweepRow_ok arith worlds bandwidths nPackets simTime
      (payloadSize.getD n 0) h m
      { allResults := rs,
        calls := (List.range n).flatMap fun i => (List.range m).flatMap fun j =>
          (RunTest arith (worlds (i * m + j)) (payloadSize.getD i 0)
            (bandwidths.getD j 0) nPackets simTime).calls }
    simp only [hlen] at hrow hrget
    refine ⟨rs ++ row, ?_, ?_, ?_⟩
    · unfold sweep at hrs ⊢
      rw [List.range_succ, List.foldlM_append, hrs]
      simp only [bind, Except.bind, List.foldlM_cons, List.foldlM_nil, hrow, pure, Except.pure,
        List.flatMap_append, List.flatMap_singleton]
    · rw [List.length_append, hlen, hrlen, Nat.succ_mul]
    · intro i j hi hj
      rcases Nat.lt_succ_iff_lt_or_eq.mp hi with hlt | heq
      · obtain ⟨r, hr1, hr2, hr3⟩ := hget i j hlt hj
        refine ⟨r, ?_, hr2, hr3⟩
        have hidx : i * m + j < rs.length := by
          rw [hlen]
          calc i * m + j < i * m + m := by omega
            _ = (i + 1) * m := by rw [Nat.succ_mul]
            _ ≤ n * m := Nat.mul_le_mul_right m hlt
        rw [List.getElem?_append_left hidx]
        exact hr1
      · subst heq
        obtain ⟨r, hr1, hr2, hr3⟩ := hrget j hj
        refine ⟨r, ?_, hr2, hr3⟩
        rw [List.getElem?_append_right (by omega)]
        rw [hlen, Nat.add_sub_cancel_left]
        exact hr1

/-- With a zero duration `RunTest` has no result. -/
theorem RunTest_result_zero_duration (arith : DoubleArith) (w : World) (packetSize : Nat)
    (bandwidth : ℚ) (nPackets : Nat) :
    (RunTest arith w packetSize bandwidth nPackets 0).result = .error .divisionByZero := by
  simp [RunTest]

/-- With a zero duration, a packet size and a bandwidth, the first trial of the
nested loops fails and so do the loops: no vector of results is returned. -/
theorem sweep_zero_duration (arith : DoubleArith) (worlds : Nat → World)
    (payloadSize : List Nat) (bandwidths : List ℚ) (nPackets : Nat) (n m : Nat) :
    sweep arith worlds (n + 1) (m + 1) payloadSize bandwidths nPackets 0
      = .error .divisionByZero := by
  unfold sweep
  rw [List.range_succ_eq_map, List.foldlM_cons]
  have hrow : sweepRow arith worlds (m + 1) bandwidths nPackets 0 (payloadSize.getD 0 0)
      { allResults := [], calls := [] } = .error .divisionByZero := by
    unfold sweepRow
    rw [List.range_succ_eq_map, List.foldlM_cons]
    simp [RunTest_result_zero_duration, bind, Except.bind]
  rw [hrow]
  rfl

/-- For every list of packet sizes `S`, every list of bandwidths `B`, every
packet count and every non-zero duration, the loops of `main` return exactly
`len(S) * len(B)` records in row-major order: for `i < len(S)` and
`j < len(B)` the record at index `i * len(B) + j` is the result of `RunTest` on
`(S[i], B[j])`, and its `packetSize` is `S[i]`; and the requests made of ns-3
are those of the runs on `(S[0], B[0])`, `(S[0], B[1])`, ... in this order. -/
theorem sweep_row_major (arith : DoubleArith) (worlds : Nat → World) (S : List Nat)
    (B : List ℚ) (nPackets simTime : Nat) (h : simTime ≠ 0) :
    ∃ rs : List TestResult,
      sweep arith worlds S.length B.length S B nPackets simTime
        = .ok
            { allResults := rs,
              calls := (List.range S.length).flatMap fun i =>
                (List.range B.length).flatMap fun j =>
                  (RunTest arith (worlds (i * B.length + j)) (S.getD i 0) (B.getD j 0)
                    nPackets simTime).calls }
      ∧ rs.length = S.length * B.length
      ∧ ∀ (i j : Nat) (hi : i < S.length) (hj : j < B.length),
          ∃ r, rs[i * B.length + j]? = some r
            ∧ (RunTest arith (worlds (i * B.length + j)) S[i] B[j] nPackets simTime).result
                = .ok r
            ∧ r.packetSize = S[i] := by
  obtain ⟨rs, hrs, hlen, hget⟩ := sweep_ok arith worlds S B nPackets simTime h B.length S.length
  refine ⟨rs, hrs, hlen, ?_⟩
  intro i j hi hj
  obtain ⟨r, hr1, hr2, hr3⟩ := hget i j hi hj
  rw [List.getD_eq_getElem S 0 hi] at hr2 hr3
  rw [List.getD_eq_getElem B 0 hj] at hr2
  exact ⟨r, hr1, hr2, hr3⟩

/-- C1 at sizes `[128, 256]`, bandwidths `[1e6, 2e6]`, 1000 packets and a
duration of 0: the first trial divides by zero and the loops return no vector
of results, where the claim has four.  With a duration of 30 s the same grid
gives four records, for the packet sizes 128, 128, 256, 256, and the data
rates are requested in the order 1e6, 2e6, 1e6, 2e6. -/
theorem sweep_zero_duration_no_results :
    sweep idealArith (fun k => sampleWorld 0 k) 2 2 [128, 256] [1000000, 2000000] 1000 0
        = .error .divisionByZero
    ∧ ∃ st, sweep idealArith (fun k => sampleWorld 30 k) 2 2 [128, 256] [1000000, 2000000]
          1000 30 = .ok st
        ∧ st.allResults.map (fun r => r.packetSize) = [128, 128, 256, 256]
        ∧ dataRates st.calls
            = ["1000000.000000bps", "2000000.000000bps", "1000000.000000bps",
                "2000000.000000bps"] := by
  refine ⟨sweep_zero_duration idealArith _ [128, 256] [1000000, 2000000] 1000 1 1, ?_⟩
  refine ⟨_, rfl, ?_, ?_⟩
  · decide
  · decide

/-! ## The text of `SaveResultsToFile` -/

/-- A text without the separator is a single piece. -/
theorem splitAtChar_of_not_mem (sep : Char) (a : List Char) (h : sep ∉ a) :
    splitAtChar sep a = [a] := by
  induction a with
  | nil => rfl
  | cons c cs ih =>
    have hc : c ≠ sep := fun e => h (e ▸ List.mem_cons_self c cs)
    have hcs : sep ∉ cs := fun e => h (List.mem_cons_of_mem c e)
    simp [splitAtChar, hc, ih hcs]

/-- A text up to its first separator is the first piece. -/
theorem splitAtChar_append_sep (sep : Char) (a b : List Char) (h : sep ∉ a) :
    splitAtChar sep (a ++ sep :: b) = a :: splitAtChar sep b := by
  induction a with
  | nil => simp [splitAtChar]
  | cons c cs ih =>
    have hc : c ≠ sep := fun e => h (e ▸ List.mem_cons_self c cs)
    have hcs : sep ∉ cs := fun e => h (List.mem_cons_of_mem c e)
    simp [splitAtChar, hc, ih hcs]

/-- Cutting comma-joined fields at the commas gives the fields back. -/
theorem splitAtChar_joinFields (fs : List (List Char)) (hne : fs ≠ [])
    (h : ∀ f ∈ fs, ',' ∉ f) : splitAtChar ',' (joinFields fs) = fs := by
  induction fs with
  | nil => exact absurd rfl hne
  | cons f fs ih =>
    cases fs with
    | nil => exact splitAtChar_of_not_mem ',' f (h f (List.mem_cons_self f []))
    | cons g gs =>
      have hf : ',' ∉ f := h f (List.mem_cons_self f _)
      have hrest : ∀ x ∈ g :: gs, ',' ∉ x := fun x hx => h x (List.mem_cons_of_mem f hx)
      show splitAtChar ',' (f ++ ',' :: joinFields (g :: gs)) = f :: g :: gs
      rw [splitAtChar_append_sep ',' f _ hf, ih (List.cons_ne_nil g gs) hrest]

/-- Comma-joined fields without line feeds hold no line feed. -/
theorem newline_not_mem_joinFields (fs : List (List Char)) (h : ∀ f ∈ fs, '\n' ∉ f) :
    '\n' ∉ joinFields fs := by
  induction fs with
  | nil => simp [joinFields]
  | cons f fs ih =>
    cases fs with
    | nil => exact h f (List.mem_cons_self f [])
    | cons g gs =>
      have hf : '\n' ∉ f := h f (List.mem_cons_self f _)
      have hrest : ∀ x ∈ g :: gs, '\n' ∉ x := fun x hx => h x (List.mem_cons_of_mem f hx)
      have hj := ih hrest
      show '\n' ∉ f ++ ',' :: joinFields (g :: gs)
      intro hm
      rcases List.mem_append.mp hm with h1 | h2
      · exact hf h1
      · rcases List.mem_cons.mp h2 with h3 | h4
        · exact absurd h3 (by decide)
        · exact hj h4

/-- Cutting line-feed-ended lines at the line feeds gives the lines back, and
an empty piece after the last line feed. -/
theorem splitAtChar_joinLines (ls : List (List Char)) (h : ∀ l ∈ ls, '\n' ∉ l) :
    splitAtChar '\n' (joinLines ls) = ls ++ [[]] := by
  induction ls with
  | nil => rfl
  | cons l ls ih =>
    have hl : '\n' ∉ l := h l (List.mem_cons_self l ls)
    have hrest : ∀ x ∈ ls, '\n' ∉ x := fun x hx => h x (List.mem_cons_of_mem l hx)
    show splitAtChar '\n' (l ++ '\n' :: joinLines ls) = l :: ls ++ [[]]
    rw [splitAtChar_append_sep '\n' l _ hl, ih hrest]
    rfl

/-- The loop of `SaveResultsToFile` appends to the text written so far, for
each record in order, its seven fields joined by commas and a line feed. -/
theorem SaveResultsToFile_loop (fmt : Formatter) (rs : List TestResult) :
    ∀ file : String,
      (rs.foldl
        (fun file result =>
          file ++ fmt.uint result.packetSize ++ "," ++ fmt.dbl result.throughput ++ ","
            ++ fmt.dbl result.throughputBytes ++ "," ++ fmt.dbl result.cpuUtilization
            ++ "," ++ fmt.dbl result.jitter ++ "," ++ fmt.uint result.packetsLost ++ ","
            ++ fmt.uint result.packetsSent ++ "\n")
        file).toList
      = file.toList
          ++ joinLines (rs.map (fun r => joinFields ((fieldsOf fmt r).map String.toList))) := by
  induction rs with
  | nil => intro file; simp [joinLines]
  | cons r rs ih =>
    intro file
    rw [List.foldl_cons, ih]
    simp [joinLines, joinFields, fieldsOf, String.toList, String.data_append]

/-- The header is the seven column names joined by commas and a line feed. -/
theorem csvHeader_toList :
    csvHeader.toList = joinLines [joinFields (columnNames.map String.toList)] := by
  decide

/-- C10. For every list of results whose formatted numbers hold no comma, the
text `SaveResultsToFile` writes is the header line followed by exactly one line
per result, in the list's order and with nothing else; the header line is the
seven column names joined by commas, and each data line is seven
comma-separated fields, `packetSize`, `throughput`, `throughputBytes`,
`cpuUtilization`, `jitter`, `packetsLost`, `packetsSent` of its result, in the
order of the header columns: cutting a line at its commas gives back exactly
these seven.  When the formatted numbers hold no line feed either, a reader
that cuts the file at line feeds and commas recovers the whole table. -/
theorem SaveResultsToFile_csv (fmt : Formatter) (rs : List TestResult)
    (h : ∀ r ∈ rs, ∀ f ∈ fieldsOf fmt r, ',' ∉ f.toList) :
    (SaveResultsToFile fmt rs).toList
        = joinLines ((columnNames :: rs.map (fieldsOf fmt)).map
            (fun row => joinFields (row.map String.toList)))
      ∧ (∀ row ∈ columnNames :: rs.map (fieldsOf fmt),
          row.length = 7
          ∧ splitAtChar ',' (joinFields (row.map String.toList)) = row.map String.toList)
      ∧ ((∀ r ∈ rs, ∀ f ∈ fieldsOf fmt r, '\n' ∉ f.toList) →
          readCsv (SaveResultsToFile fmt rs)
            = (columnNames :: rs.map (fieldsOf fmt)).map (fun row => row.map String.toList)
                ++ [[[]]]) := by
  have htext : (SaveResultsToFile fmt rs).toList
      = joinLines ((columnNames :: rs.map (fieldsOf fmt)).map
          (fun row => joinFields (row.map String.toList))) := by
    unfold SaveResultsToFile
    rw [SaveResultsToFile_loop, csvHeader_toList]
    simp [joinLines, List.map_map, Function.comp_def]
  have hfields : ∀ row ∈ columnNames :: rs.map (fieldsOf fmt),
      row.length = 7
      ∧ splitAtChar ',' (joinFields (row.map String.toList)) = row.map String.toList := by
    intro row hrow
    rcases List.mem_cons.mp hrow with hhead | htail
    · subst hhead
      refine ⟨rfl, ?_⟩
      apply splitAtChar_joinFields
      · decide
      · intro f hf
        rcases List.mem_map.mp hf with ⟨s, hs, rfl⟩
        revert s
        decide
    · rcases List.mem_map.mp htail with ⟨r, hr, rfl⟩
      refine ⟨rfl, ?_⟩
      apply splitAtChar_joinFields
      · simp [fieldsOf]
      · intro f hf
        rcases List.mem_map.mp hf with ⟨s, hs, rfl⟩
        exact h r hr s hs
  refine ⟨htext, hfields, ?_⟩
  intro hline
  have hnl : ∀ l ∈ (columnNames :: rs.map (fieldsOf fmt)).map
      (fun row => joinFields (row.map String.toList)), '\n' ∉ l := by
    intro l hl
    rcases List.mem_map.mp hl with ⟨row, hrow, rfl⟩
    apply newline_not_mem_joinFields
    intro f hf
    rcases List.mem_map.mp hf with ⟨s, hs, rfl⟩
    rcases List.mem_cons.mp hrow with hhead | htail
    · subst hhead
      revert s
      decide
    · rcases List.mem_map.mp htail with ⟨r, hr, rfl⟩
      exact hline r hr s hs
  unfold readCsv
  rw [htext, splitAtChar_joinLines _ hnl, List.map_append, List.map_map]
  congr 1
  apply List.map_congr_left
  intro row hrow
  exact (hfields row hrow).2

/-- Witness of C10: a file of two records. -/
theorem SaveResultsToFile_csv_witness :
    (∀ r ∈ sampleResults, ∀ f ∈ fieldsOf sampleFormatter r, ',' ∉ f.toList)
    ∧ ((SaveResultsToFile sampleFormatter sampleResults).toList
        = joinLines ((columnNames :: sampleResults.map (fieldsOf sampleFormatter)).map
            (fun row => joinFields (row.map String.toList)))
      ∧ (∀ row ∈ columnNames :: sampleResults.map (fieldsOf sampleFormatter),
          row.length = 7
          ∧ splitAtChar ',' (joinFields (row.map String.toList)) = row.map String.toList)
      ∧ ((∀ r ∈ sampleResults, ∀ f ∈ fieldsOf sampleFormatter r, '\n' ∉ f.toList) →
          readCsv (SaveResultsToFile sampleFormatter sampleResults)
            = (columnNames :: sampleResults.map (fieldsOf sampleFormatter)).map
                (fun row => row.map String.toList) ++ [[[]]])) :=
  ⟨by decide, SaveResultsToFile_csv sampleFormatter sampleResults (by decide)⟩

end Scenario1
